import Mathlib

/-!
Verification of the weekly sales / media automation pipeline.

The development shallowly embeds the two pipeline scripts
(`sales_auto.py`, `media_auto.py`) over lists of typed records:

* a dataframe is a `List` of record structures;
* a nullable cell is an `Option`;
* numeric cells are exact rationals (`ℚ`), so the algebraic claims are
  settled in exact arithmetic;
* `pd.to_numeric(..., errors="coerce")` / `pd.to_datetime(..., errors="coerce")`
  are modelled by the record fields already being `Option`-typed: an
  unparseable cell is `none`;
* a pandas groupby/pivot aggregation is the corresponding list
  filter/map/sum, with the empty sum `0` standing for `fill_value=0`.

An input `recs : List SalesRecord` stands for the dataframe `df` as it is
right after the normalization prelude of `sales_auto.py` (date
normalization, numeric coercion, `drop_duplicates`): every claim under
verification quantifies over the state after that prelude.
-/

namespace SalesAuto

/-- Week bucket assigned by the window classifier
(`sales_auto.py`, the `week_map` loop). -/
inductive Bucket where
  | TTM
  | LY
  | PY
  deriving DecidableEq

/-- One normalized input row of `sales_auto.py`.
`week` is the `Week` column after `pd.to_datetime(..., errors="coerce").dt.normalize()`
(a day number; `none` = unparseable date), `sales` is `ST_Retail_$` and
`units` is `ST_Units` after `pd.to_numeric(..., errors="coerce")`. -/
structure SalesRecord where
  week : Option Nat
  franchise : String
  sales : Option ℚ
  units : Option ℚ
  deriving DecidableEq

/-- Embeds `unique_weeks = sorted(df["Week"].dropna().unique(), reverse=True)`:
the distinct non-null weeks, newest first.  (The sort is modelled by
`insertionSort`; on a duplicate-free list every correct sort produces the
same, unique, sorted arrangement.) -/
def uniqueWeeks (recs : List SalesRecord) : List Nat :=
  ((recs.filterMap (fun r => r.week)).dedup).insertionSort (· ≥ ·)

/-- The body of the `week_map` loop: the bucket assigned to the week at
0-based position `i` of `unique_weeks` (`i < 52 → TTM`, `elif i < 104 → LY`,
`else PY`). -/
def bucketOfIdx (i : Nat) : Bucket :=
  if i < 52 then Bucket.TTM else if i < 104 then Bucket.LY else Bucket.PY

/-- The `week_map` dict built by `for i, wk in enumerate(unique_weeks)`:
since `unique_weeks` has no duplicate keys, the dict is the association
list pairing each week with the bucket of its position. -/
def weekMapList (recs : List SalesRecord) : List (Nat × Bucket) :=
  ((uniqueWeeks recs).enum).map (fun p => (p.2, bucketOfIdx p.1))

/-- Dictionary lookup in `week_map` (a key that was never assigned is
absent, i.e. `none`). -/
def week_map (recs : List SalesRecord) (wk : Nat) : Option Bucket :=
  List.lookup wk (weekMapList recs)

/-- Embeds `df["Week Mapping"] = df["Week"].map(week_map)`: a null week, or a
week absent from the dict, maps to null. -/
def weekMapping (recs : List SalesRecord) (w : Option Nat) : Option Bucket :=
  w.bind (week_map recs)

/-- Embeds `df["Include"] = df["Week Mapping"].apply(lambda x: "Include" if x in {"TTM", "LY"} else "Exclude")`,
as a Boolean (`true` = `"Include"`). -/
def includeFlag (recs : List SalesRecord) (r : SalesRecord) : Bool :=
  match weekMapping recs r.week with
  | some Bucket.TTM => true
  | some Bucket.LY => true
  | _ => false

/-- Embeds `df_out = df.loc[df["Include"] == "Include", ...]`: the included rows
(column subsetting/renaming is identity on our typed records). -/
def includedRecords (recs : List SalesRecord) : List SalesRecord :=
  recs.filter (includeFlag recs)

/-! ### Generic association-list helpers for the `week_map` dict -/

theorem lookup_enumFrom_map_get {α β : Type} [DecidableEq α] (f : ℕ → β) :
    ∀ (l : List α) (_ : l.Nodup) (n : ℕ) (i : ℕ) (h : i < l.length),
      List.lookup (l.get ⟨i, h⟩) ((l.enumFrom n).map (fun p => (p.2, f p.1)))
        = some (f (n + i)) := by
  intro l
  induction l with
  | nil => intro _ n i h; exact absurd h (Nat.not_lt_zero i)
  | cons a t ih =>
    intro hnd n i h
    rcases List.nodup_cons.mp hnd with ⟨ha, ht⟩
    cases i with
    | zero =>
      simp [List.enumFrom, List.lookup]
    | succ j =>
      have hj : j < t.length := Nat.lt_of_succ_lt_succ h
      have hget : (a :: t).get ⟨j + 1, h⟩ = t.get ⟨j, hj⟩ := rfl
      have hne : (t.get ⟨j, hj⟩) ≠ a := by
        intro hEq
        exact ha (hEq ▸ t.get_mem j hj)
      have hbeq : ((a :: t).get ⟨j + 1, h⟩ == a) = false := by
        rw [hget]
        exact beq_false_of_ne hne
      simp only [List.enumFrom, List.map, List.lookup, hbeq]
      have harith : n + 1 + j = n + (j + 1) := by omega
      rw [hget, ih ht (n + 1) j hj, harith]

theorem lookup_enumFrom_map_mem {α β : Type} [DecidableEq α] (f : ℕ → β) :
    ∀ (l : List α) (n : ℕ) (wk : α) (b : β),
      List.lookup wk ((l.enumFrom n).map (fun p => (p.2, f p.1))) = some b →
      ∃ i, i < l.length ∧ b = f (n + i) := by
  intro l
  induction l with
  | nil => intro n wk b hlk; simp [List.enumFrom, List.lookup] at hlk
  | cons a t ih =>
    intro n wk b hlk
    by_cases hwa : wk = a
    · subst hwa
      simp only [List.enumFrom, List.map, List.lookup, beq_self_eq_true] at hlk
      refine ⟨0, Nat.succ_pos _, ?_⟩
      rw [Nat.add_zero]
      exact (Option.some.injEq _ _ ▸ hlk).symm
    · have hbeq : (wk == a) = false := beq_false_of_ne hwa
      simp only [List.enumFrom, List.map, List.lookup, hbeq] at hlk
      rcases ih (n + 1) wk b hlk with ⟨i, hi, hb⟩
      exact ⟨i + 1, Nat.succ_lt_succ hi, by rw [hb]; congr 1; omega⟩

theorem nodup_uniqueWeeks (recs : List SalesRecord) : (uniqueWeeks recs).Nodup :=
  List.Nodup.perm (List.nodup_dedup _) (List.perm_insertionSort _ _).symm

theorem week_map_get (recs : List SalesRecord) :
    ∀ i (h : i < (uniqueWeeks recs).length),
      week_map recs ((uniqueWeeks recs).get ⟨i, h⟩) = some (bucketOfIdx i) := by
  intro i h
  have := lookup_enumFrom_map_get bucketOfIdx (uniqueWeeks recs)
    (nodup_uniqueWeeks recs) 0 i h
  simpa [week_map, weekMapList, List.enum] using this

theorem week_map_some (recs : List SalesRecord) (wk : Nat) (b : Bucket)
    (h : week_map recs wk = some b) :
    ∃ i, i < (uniqueWeeks recs).length ∧ b = bucketOfIdx i := by
  have h2 : List.lookup wk (((uniqueWeeks recs).enumFrom 0).map
      (fun p => (p.2, bucketOfIdx p.1))) = some b := by
    simpa [week_map, weekMapList, List.enum] using h
  rcases lookup_enumFrom_map_mem bucketOfIdx (uniqueWeeks recs) 0 wk b h2 with ⟨i, hi, hb⟩
  exact ⟨i, hi, by simpa using hb⟩

/-- Claim C2: rank-based week bucketing — the distinct non-null weeks sorted
descending get rank `1..N` by position (`rank = i + 1` for 0-based `i`);
rank ∈ [1,52] maps to TTM, rank ∈ [53,104] to LY, rank ≥ 105 to PY.  In
particular with fewer than 52 distinct weeks every distinct week is TTM,
and with fewer than 104 no week receives bucket PY. -/
theorem c2_week_bucket_ranks (recs : List SalesRecord) :
    (∀ i (h : i < (uniqueWeeks recs).length),
        week_map recs ((uniqueWeeks recs).get ⟨i, h⟩) = some (bucketOfIdx i)) ∧
    (∀ i, (bucketOfIdx i = Bucket.TTM ↔ i + 1 ≤ 52) ∧
        (bucketOfIdx i = Bucket.LY ↔ 53 ≤ i + 1 ∧ i + 1 ≤ 104) ∧
        (bucketOfIdx i = Bucket.PY ↔ 105 ≤ i + 1)) ∧
    ((uniqueWeeks recs).length < 52 →
        ∀ wk ∈ uniqueWeeks recs, week_map recs wk = some Bucket.TTM) ∧
    ((uniqueWeeks recs).length < 104 →
        ∀ wk, week_map recs wk ≠ some Bucket.PY) := by
  refine ⟨week_map_get recs, ?_, ?_, ?_⟩
  · intro i
    rcases Nat.lt_or_ge i 52 with h1 | h1
    · rw [show bucketOfIdx i = Bucket.TTM from by unfold bucketOfIdx; simp [h1]]
      exact ⟨by simp; omega, by simp; omega, by simp; omega⟩
    · rcases Nat.lt_or_ge i 104 with h2 | h2
      · rw [show bucketOfIdx i = Bucket.LY from by
          unfold bucketOfIdx; simp [Nat.not_lt.mpr h1, h2]]
        exact ⟨by simp; omega, by simp; omega, by simp; omega⟩
      · rw [show bucketOfIdx i = Bucket.PY from by
          unfold bucketOfIdx; simp [Nat.not_lt.mpr h1, Nat.not_lt.mpr h2]]
        exact ⟨by simp; omega, by simp; omega, by simp; omega⟩
  · intro hN wk hwk
    rcases List.mem_iff_get.mp hwk with ⟨⟨i, hi⟩, hget⟩
    have hwm := week_map_get recs i hi
    rw [hget] at hwm
    rw [hwm]
    have : bucketOfIdx i = Bucket.TTM := by
      unfold bucketOfIdx; simp [show i < 52 by omega]
    rw [this]
  · intro hN wk hcon
    rcases week_map_some recs wk Bucket.PY hcon with ⟨i, hi, hb⟩
    rcases Nat.lt_or_ge i 52 with h1 | h1
    · simp [bucketOfIdx, h1] at hb
    · simp [bucketOfIdx, Nat.not_lt.mpr h1, show i < 104 by omega] at hb

/-- Concrete two-week input used to witness C2. -/
def c2exRecs : List SalesRecord :=
  [⟨some 9, "A", some 1, some 1⟩, ⟨some 5, "A", some 2, some 1⟩]

theorem c2_week_bucket_ranks_witness :
    (uniqueWeeks c2exRecs).length < 52 ∧ 9 ∈ uniqueWeeks c2exRecs ∧
      week_map c2exRecs 9 = some Bucket.TTM :=
  ⟨by decide, by decide,
    (c2_week_bucket_ranks c2exRecs).2.2.1 (by decide) 9 (by decide)⟩

/-! ### Aggregation engine: groupby / pivot / outer join
(`sales_auto.py`, the crosstab and analytical-table section). -/

/-- The pandas NaN-skipping sum: a null cell contributes `0`
(`groupby(...).sum()` with the default `min_count=0`). -/
def qOr0 (x : Option ℚ) : ℚ := x.getD 0

/-- The `(bucket, franchise)` cell of the Sales pivot: the
`groupby(["Week Mapping", "Franchise"]).sum()` rows pivoted with
`aggfunc="sum", fill_value=0` — summing group sums over included records
equals one sum over the matching included records, and `fill_value=0` is
the empty sum. -/
def sumSales (recs : List SalesRecord) (fr : String) (b : Bucket) : ℚ :=
  (((includedRecords recs).filter
      (fun r => decide (weekMapping recs r.week = some b ∧ r.franchise = fr))).map
    (fun r => qOr0 r.sales)).sum

/-- The `(bucket, franchise)` cell of the Units pivot. -/
def sumUnits (recs : List SalesRecord) (fr : String) (b : Bucket) : ℚ :=
  (((includedRecords recs).filter
      (fun r => decide (weekMapping recs r.week = some b ∧ r.franchise = fr))).map
    (fun r => qOr0 r.units)).sum

/-- The pivot index: the distinct franchises among included records,
sorted ascending (`pivot_table` sorts its index). -/
def franchises (recs : List SalesRecord) : List String :=
  (((includedRecords recs).map (fun r => r.franchise)).dedup).insertionSort (· ≤ ·)

/-- The `sales_ct` pivot after forcing both bucket columns, sorting them
(`LY` before `TTM`) and renaming: one row per index entry carrying the
pair (LY_Sales, TTM_Sales). -/
def sales_ct (recs : List SalesRecord) : List (String × ℚ × ℚ) :=
  (franchises recs).map
    (fun fr => (fr, sumSales recs fr Bucket.LY, sumSales recs fr Bucket.TTM))

/-- The `units_ct` pivot: one row per index entry carrying (LY_Units, TTM_Units). -/
def units_ct (recs : List SalesRecord) : List (String × ℚ × ℚ) :=
  (franchises recs).map
    (fun fr => (fr, sumUnits recs fr Bucket.LY, sumUnits recs fr Bucket.TTM))

/-- Column names of `sales_ct` after the line-109 rename. -/
def sales_ct_cols : List String := ["LY_Sales", "TTM_Sales"]

/-- Column names of `units_ct` after the line-110 rename. -/
def units_ct_cols : List String := ["LY_Units", "TTM_Units"]

/-- Column order of the joined table: the index restored by
`reset_index()` first, then the left (sales) columns, then the right
(units) columns appended by `join`. -/
def analyticalBaseCols : List String := "Franchise" :: (sales_ct_cols ++ units_ct_cols)

/-- One row of the joined crosstab (the analytical table before the
derived metric columns). -/
structure CrosstabRow where
  franchise : String
  lySales : ℚ
  ttmSales : ℚ
  lyUnits : ℚ
  ttmUnits : ℚ
  deriving DecidableEq

/-- Key set of `sales_ct.join(units_ct, how="outer")`: the left index
followed by the right-only keys. -/
def joinKeys (recs : List SalesRecord) : List String :=
  (sales_ct recs).map (fun row => row.1) ++
    ((units_ct recs).map (fun row => row.1)).filter
      (fun fr => decide (fr ∉ (sales_ct recs).map (fun row => row.1)))

/-- Embeds `analytical_tbl = sales_ct.join(units_ct, how="outer").reset_index().fillna(0)`:
each join key takes its sales pair from `sales_ct` and its units pair from
`units_ct`; a key missing from either side yields nulls there, which
`fillna(0)` replaces by zero. -/
def analyticalBase (recs : List SalesRecord) : List CrosstabRow :=
  (joinKeys recs).map (fun fr =>
    let s := List.lookup fr (sales_ct recs)
    let u := List.lookup fr (units_ct recs)
    { franchise := fr
      lySales := (s.map Prod.fst).getD 0
      ttmSales := (s.map (fun p => p.2)).getD 0
      lyUnits := (u.map Prod.fst).getD 0
      ttmUnits := (u.map (fun p => p.2)).getD 0 })

theorem lookup_map_self {α β : Type} [DecidableEq α] (f : α → β) :
    ∀ (l : List α) (_ : l.Nodup) (a : α) (_ : a ∈ l),
      List.lookup a (l.map (fun x => (x, f x))) = some (f a) := by
  intro l
  induction l with
  | nil => intro _ a ha; cases ha
  | cons x t ih =>
    intro hnd a ha
    rcases List.nodup_cons.mp hnd with ⟨hx, ht⟩
    rcases List.mem_cons.mp ha with h | h
    · subst h
      simp [List.lookup]
    · have hne : (a == x) = false := by
        refine beq_false_of_ne ?_
        intro hEq
        exact hx (hEq ▸ h)
      simp only [List.map, List.lookup, hne]
      exact ih ht a h

theorem nodup_franchises (recs : List SalesRecord) : (franchises recs).Nodup :=
  List.Nodup.perm (List.nodup_dedup _) (List.perm_insertionSort _ _).symm

theorem sales_ct_keys (recs : List SalesRecord) :
    (sales_ct recs).map (fun row => row.1) = franchises recs := by
  unfold sales_ct
  rw [List.map_map]
  exact List.map_id _

theorem units_ct_keys (recs : List SalesRecord) :
    (units_ct recs).map (fun row => row.1) = franchises recs := by
  unfold units_ct
  rw [List.map_map]
  exact List.map_id _

theorem joinKeys_eq (recs : List SalesRecord) : joinKeys recs = franchises recs := by
  unfold joinKeys
  rw [sales_ct_keys, units_ct_keys]
  have hnil : (franchises recs).filter
      (fun fr => decide (fr ∉ franchises recs)) = [] := by
    refine List.filter_eq_nil_iff.mpr ?_
    intro a ha
    simp [ha]
  rw [hnil, List.append_nil]

/-- Claim C3: the joined crosstab has exactly one row per distinct
franchise among included records; its four numeric columns are all
populated (each equal to the corresponding zero-filled bucket total, so
no nulls survive the join); and the column order is the fixed list
`Franchise, LY_Sales, TTM_Sales, LY_Units, TTM_Units`. -/
theorem c3_crosstab_shape (recs : List SalesRecord) :
    analyticalBase recs = (franchises recs).map (fun fr =>
      { franchise := fr
        lySales := sumSales recs fr Bucket.LY
        ttmSales := sumSales recs fr Bucket.TTM
        lyUnits := sumUnits recs fr Bucket.LY
        ttmUnits := sumUnits recs fr Bucket.TTM : CrosstabRow }) ∧
    (analyticalBase recs).map (fun row => row.franchise) = franchises recs ∧
    (analyticalBase recs).length
      = (((includedRecords recs).map (fun r => r.franchise)).dedup).length ∧
    analyticalBaseCols = ["Franchise", "LY_Sales", "TTM_Sales", "LY_Units", "TTM_Units"] := by
  have hmain : analyticalBase recs = (franchises recs).map (fun fr =>
      { franchise := fr
        lySales := sumSales recs fr Bucket.LY
        ttmSales := sumSales recs fr Bucket.TTM
        lyUnits := sumUnits recs fr Bucket.LY
        ttmUnits := sumUnits recs fr Bucket.TTM : CrosstabRow }) := by
    unfold analyticalBase
    rw [joinKeys_eq]
    refine List.map_congr_left ?_
    intro fr hfr
    have hs : List.lookup fr (sales_ct recs)
        = some (sumSales recs fr Bucket.LY, sumSales recs fr Bucket.TTM) := by
      unfold sales_ct
      exact lookup_map_self
        (fun fr => (sumSales recs fr Bucket.LY, sumSales recs fr Bucket.TTM))
        (franchises recs) (nodup_franchises recs) fr hfr
    have hu : List.lookup fr (units_ct recs)
        = some (sumUnits recs fr Bucket.LY, sumUnits recs fr Bucket.TTM) := by
      unfold units_ct
      exact lookup_map_self
        (fun fr => (sumUnits recs fr Bucket.LY, sumUnits recs fr Bucket.TTM))
        (franchises recs) (nodup_franchises recs) fr hfr
    simp [hs, hu]
  refine ⟨hmain, ?_, ?_, rfl⟩
  · rw [hmain, List.map_map]
    exact List.map_id _
  · rw [hmain]
    simp [franchises, List.length_insertionSort]

/-! ### Analytical metrics calculator (growth, CTG, distribution, sort) -/

/-- A row of the final analytical table: the crosstab row extended with
the four derived metric columns (each nullable). -/
structure AnalyticalRow where
  franchise : String
  lySales : ℚ
  ttmSales : ℚ
  lyUnits : ℚ
  ttmUnits : ℚ
  salesGrowth : Option ℚ
  unitsGrowth : Option ℚ
  ctg : Option ℚ
  distribution : Option ℚ
  deriving DecidableEq

/-- Embeds `total_LY_sales = analytical_tbl["LY_Sales"].sum()`. -/
def totalLY (rows : List CrosstabRow) : ℚ := (rows.map (fun r => r.lySales)).sum

/-- Embeds `total_TTM_sales = analytical_tbl["TTM_Sales"].sum()`. -/
def totalTTM (rows : List CrosstabRow) : ℚ := (rows.map (fun r => r.ttmSales)).sum

/-- The derived-metric block: per-row growth columns use
`.replace({0: pd.NA})` on the denominator, so a zero denominator yields a
null, never an exception; the CTG / Distribution columns are computed when
the corresponding grand total is nonzero and are whole-column null
otherwise. -/
def metricsOf (base : List CrosstabRow) : List AnalyticalRow :=
  let tLY := totalLY base
  let tTTM := totalTTM base
  base.map (fun r =>
    { franchise := r.franchise
      lySales := r.lySales
      ttmSales := r.ttmSales
      lyUnits := r.lyUnits
      ttmUnits := r.ttmUnits
      salesGrowth :=
        if r.lySales = (0 : ℚ) then none
        else some ((r.ttmSales - r.lySales) / r.lySales)
      unitsGrowth :=
        if r.lyUnits = (0 : ℚ) then none
        else some ((r.ttmUnits - r.lyUnits) / r.lyUnits)
      ctg := if tLY = (0 : ℚ) then none else some ((r.ttmSales - r.lySales) / tLY)
      distribution := if tTTM = (0 : ℚ) then none else some (r.ttmSales / tTTM) })

/-- The analytical table of the pipeline, before the final sort. -/
def analyticalTable (recs : List SalesRecord) : List AnalyticalRow :=
  metricsOf (analyticalBase recs)

/-- Embeds `analytical_tbl.sort_values("TTM_Sales", ascending=False)`.
pandas (`nargsort`) implements a descending single-column sort by
reversing the values and their index positions, argsorting the reversed
values ascending, and reversing the resulting indexer wholesale — the
double reversal makes the descending sort tie-stable.  The ascending
argsort is modelled by a stable insertion sort. -/
def sortValuesDescTTM (rows : List AnalyticalRow) : List AnalyticalRow :=
  ((rows.reverse).insertionSort (fun a b => a.ttmSales ≤ b.ttmSales)).reverse

/-- The sorted analytical table produced from a given joined crosstab. -/
def analyticalSortedOf (base : List CrosstabRow) : List AnalyticalRow :=
  sortValuesDescTTM (metricsOf base)

/-- The sorted analytical table of the full pipeline. -/
def analyticalSorted (recs : List SalesRecord) : List AnalyticalRow :=
  analyticalSortedOf (analyticalBase recs)

theorem filterMap_some_comp {α β : Type} (f : α → β) (l : List α) :
    l.filterMap (fun a => some (f a)) = l.map f := by
  induction l with
  | nil => rfl
  | cons a t ih => simp [List.filterMap_cons, ih]

theorem sum_map_sub_totals (base : List CrosstabRow) :
    (base.map (fun r => r.ttmSales - r.lySales)).sum = totalTTM base - totalLY base := by
  induction base with
  | nil => simp [totalTTM, totalLY]
  | cons a t ih =>
    simp only [totalTTM, totalLY, List.map_cons, List.sum_cons] at ih ⊢
    rw [ih]
    ring

/-- Claim C4: in exact rational arithmetic, when total TTM sales are
positive the Distribution column sums to exactly 1 over all franchise
rows, and when total LY sales are positive the CTG column sums to exactly
(total TTM − total LY) / total LY. -/
theorem c4_distribution_ctg_sums (base : List CrosstabRow) :
    (0 < totalTTM base →
      ((metricsOf base).filterMap (fun row => row.distribution)).sum = 1) ∧
    (0 < totalLY base →
      ((metricsOf base).filterMap (fun row => row.ctg)).sum
        = (totalTTM base - totalLY base) / totalLY base) := by
  constructor
  · intro h
    have hne : totalTTM base ≠ 0 := ne_of_gt h
    simp only [metricsOf]
    rw [List.filterMap_map]
    show (base.filterMap (fun r =>
      if totalTTM base = (0 : ℚ) then none
      else some (r.ttmSales / totalTTM base))).sum = 1
    rw [show (fun r : CrosstabRow =>
        if totalTTM base = (0 : ℚ) then none
        else some (r.ttmSales / totalTTM base))
        = (fun r : CrosstabRow => some (r.ttmSales / totalTTM base)) from
      funext (fun r => if_neg hne)]
    rw [filterMap_some_comp (fun r : CrosstabRow => r.ttmSales / totalTTM base) base]
    simp only [div_eq_mul_inv]
    rw [List.sum_map_mul_right]
    exact mul_inv_cancel₀ hne
  · intro h
    have hne : totalLY base ≠ 0 := ne_of_gt h
    simp only [metricsOf]
    rw [List.filterMap_map]
    show (base.filterMap (fun r =>
      if totalLY base = (0 : ℚ) then none
      else some ((r.ttmSales - r.lySales) / totalLY base))).sum
        = (totalTTM base - totalLY base) / totalLY base
    rw [show (fun r : CrosstabRow =>
        if totalLY base = (0 : ℚ) then none
        else some ((r.ttmSales - r.lySales) / totalLY base))
        = (fun r : CrosstabRow => some ((r.ttmSales - r.lySales) / totalLY base)) from
      funext (fun r => if_neg hne)]
    rw [filterMap_some_comp
      (fun r : CrosstabRow => (r.ttmSales - r.lySales) / totalLY base) base]
    simp only [div_eq_mul_inv]
    rw [List.sum_map_mul_right, sum_map_sub_totals]

/-- Concrete crosstab used to witness C4. -/
def c4exBase : List CrosstabRow := [⟨"A", 1, 1, 1, 1⟩]

theorem c4_distribution_ctg_sums_witness :
    (0 < totalTTM c4exBase ∧ 0 < totalLY c4exBase) ∧
    ((metricsOf c4exBase).filterMap (fun row => row.distribution)).sum = 1 ∧
    ((metricsOf c4exBase).filterMap (fun row => row.ctg)).sum
      = (totalTTM c4exBase - totalLY c4exBase) / totalLY c4exBase := by
  have hT : 0 < totalTTM c4exBase := by simp [totalTTM, c4exBase]
  have hL : 0 < totalLY c4exBase := by simp [totalLY, c4exBase]
  exact ⟨⟨hT, hL⟩, (c4_distribution_ctg_sums c4exBase).1 hT,
    (c4_distribution_ctg_sums c4exBase).2 hL⟩

/-- Claim C5: per-row zero-denominator handling — Sales_Growth is the
growth ratio when LY_Sales ≠ 0 and null when LY_Sales = 0 (likewise
Units_Growth with LY_Units); every metric is a total function of the row
(a zero denominator yields a null value, never an exception), and the
Distribution of a row is computed from its TTM_Sales whenever the TTM
grand total is nonzero, regardless of the LY_Sales value of the row. -/
theorem c5_growth_zero_denominator (base : List CrosstabRow) (row : AnalyticalRow)
    (h : row ∈ metricsOf base) :
    (row.salesGrowth = if row.lySales = (0 : ℚ) then none
        else some ((row.ttmSales - row.lySales) / row.lySales)) ∧
    (row.lySales = 0 → row.salesGrowth = none) ∧
    (row.unitsGrowth = if row.lyUnits = (0 : ℚ) then none
        else some ((row.ttmUnits - row.lyUnits) / row.lyUnits)) ∧
    (row.lyUnits = 0 → row.unitsGrowth = none) ∧
    (totalTTM base ≠ 0 → row.distribution = some (row.ttmSales / totalTTM base)) := by
  simp only [metricsOf] at h
  rcases List.mem_map.mp h with ⟨r, hr, rfl⟩
  refine ⟨rfl, ?_, rfl, ?_, ?_⟩
  · intro h0
    simp only at h0 ⊢
    rw [if_pos h0]
  · intro h0
    simp only at h0 ⊢
    rw [if_pos h0]
  · intro hne
    simp only
    rw [if_neg hne]

/-- Concrete crosstab (with a zero LY_Sales row) used to witness C5. -/
def c5exBase : List CrosstabRow := [⟨"A", 0, 1, 0, 1⟩]

/-- The single analytical row produced from `c5exBase`. -/
def c5exRow : AnalyticalRow :=
  (metricsOf c5exBase).headD ⟨"", 0, 0, 0, 0, none, none, none, none⟩

theorem c5_growth_zero_denominator_witness :
    c5exRow ∈ metricsOf c5exBase ∧ c5exRow.lySales = 0 ∧
    c5exRow.salesGrowth = none ∧
    (totalTTM c5exBase ≠ 0 ∧
      c5exRow.distribution = some (c5exRow.ttmSales / totalTTM c5exBase)) := by
  have hmem : c5exRow ∈ metricsOf c5exBase := by
    have hrw : metricsOf c5exBase = c5exRow :: [] := rfl
    rw [hrw]
    exact List.mem_cons_self _ _
  have hT : totalTTM c5exBase ≠ 0 := by simp [totalTTM, c5exBase]
  have hly : c5exRow.lySales = 0 := rfl
  refine ⟨hmem, hly, ?_, hT, ?_⟩
  · exact (c5_growth_zero_denominator c5exBase c5exRow hmem).2.1 hly
  · exact (c5_growth_zero_denominator c5exBase c5exRow hmem).2.2.2.2 hT

instance : IsTotal AnalyticalRow (fun a b => a.ttmSales ≤ b.ttmSales) :=
  ⟨fun a b => le_total a.ttmSales b.ttmSales⟩

instance : IsTrans AnalyticalRow (fun a b => a.ttmSales ≤ b.ttmSales) :=
  ⟨fun _ _ _ hab hbc => le_trans hab hbc⟩

/-- One row of `avg_price_tbl`. -/
structure AvgPriceRow where
  week : Nat
  franchise : String
  sumUnits : ℚ
  sumSales : ℚ
  averagePrice : Option ℚ
  deriving DecidableEq

/-- The group keys of `df_out.groupby(["Week", "Franchise"])`: the
distinct (week, franchise) pairs among included records (an included
record always carries a non-null week). -/
def avgPairs (recs : List SalesRecord) : List (Nat × String) :=
  ((includedRecords recs).filterMap
    (fun r => r.week.map (fun w => (w, r.franchise)))).dedup

/-- The `Sum_Units` total of one (week, franchise) group. -/
def sumUnitsWF (recs : List SalesRecord) (w : Nat) (fr : String) : ℚ :=
  (((includedRecords recs).filter
      (fun r => decide (r.week = some w ∧ r.franchise = fr))).map
    (fun r => qOr0 r.units)).sum

/-- The `Sum_Sales` total of one (week, franchise) group. -/
def sumSalesWF (recs : List SalesRecord) (w : Nat) (fr : String) : ℚ :=
  (((includedRecords recs).filter
      (fun r => decide (r.week = some w ∧ r.franchise = fr))).map
    (fun r => qOr0 r.sales)).sum

/-- The key order of `sort_values(["Week", "Franchise"])`. -/
def leWeekFr (a b : AvgPriceRow) : Prop :=
  a.week < b.week ∨ (a.week = b.week ∧ a.franchise ≤ b.franchise)

instance : DecidableRel leWeekFr := fun a b => by
  unfold leWeekFr
  infer_instance

/-- Embeds `avg_price_tbl`: per (week, franchise) group the summed units and
sales; `Average_Price = Sum_Sales / Sum_Units.replace({0: pd.NA})` (null
on a zero-unit group); rows sorted by week then franchise. -/
def avgPriceTbl (recs : List SalesRecord) : List AvgPriceRow :=
  ((avgPairs recs).map (fun p =>
    let su := sumUnitsWF recs p.1 p.2
    let ss := sumSalesWF recs p.1 p.2
    { week := p.1
      franchise := p.2
      sumUnits := su
      sumSales := ss
      averagePrice := if su = (0 : ℚ) then none else some (ss / su) })).insertionSort
    leWeekFr

/-- Claim C9: in the average-price table, `Average_Price` equals
`Sum_Sales / Sum_Units` exactly when `Sum_Units ≠ 0` and is null exactly
when `Sum_Units = 0`: the zero denominator is replaced by a null before
the division, so the division-by-zero case is never evaluated. -/
theorem c9_average_price (recs : List SalesRecord) (row : AvgPriceRow)
    (h : row ∈ avgPriceTbl recs) :
    (row.averagePrice = if row.sumUnits = (0 : ℚ) then none
        else some (row.sumSales / row.sumUnits)) ∧
    (row.sumUnits = 0 → row.averagePrice = none) ∧
    (row.sumUnits ≠ 0 → row.averagePrice = some (row.sumSales / row.sumUnits)) ∧
    (row.averagePrice = none ↔ row.sumUnits = 0) := by
  unfold avgPriceTbl at h
  rw [List.mem_insertionSort] at h
  rcases List.mem_map.mp h with ⟨p, hp, rfl⟩
  refine ⟨rfl, ?_, ?_, ?_⟩
  · intro h0
    simp only at h0 ⊢
    rw [if_pos h0]
  · intro h0
    simp only at h0 ⊢
    rw [if_neg h0]
  · constructor
    · intro hnone
      by_contra hne
      simp only at hnone hne
      rw [if_neg hne] at hnone
      cases hnone
    · intro h0
      simp only at h0 ⊢
      rw [if_pos h0]

/-- Concrete input (one included record with null units) witnessing C9. -/
def c9exRecs : List SalesRecord := [⟨some 3, "A", some 1, none⟩]

/-- The single row of the average-price table of `c9exRecs`. -/
def c9exRow : AvgPriceRow := (avgPriceTbl c9exRecs).headD ⟨0, "", 0, 0, none⟩

theorem c9_average_price_witness :
    c9exRow ∈ avgPriceTbl c9exRecs ∧
    (c9exRow.averagePrice = if c9exRow.sumUnits = (0 : ℚ) then none
        else some (c9exRow.sumSales / c9exRow.sumUnits)) ∧
    (c9exRow.averagePrice = none ↔ c9exRow.sumUnits = 0) := by
  have hmem : c9exRow ∈ avgPriceTbl c9exRecs := by
    have hrw : avgPriceTbl c9exRecs = c9exRow :: [] := rfl
    rw [hrw]
    exact List.mem_cons_self _ _
  exact ⟨hmem, (c9_average_price c9exRecs c9exRow hmem).1,
    (c9_average_price c9exRecs c9exRow hmem).2.2.2⟩

/-! ### Per-franchise forecaster (the Prophet modeling stage) -/

/-- One row of the Prophet input `dataset` (columns ds / ID / y). -/
structure SeriesPoint where
  ds : Nat
  id : String
  y : ℚ
  deriving DecidableEq

/-- One row of a per-franchise forecast
(columns ID, ds, trend, weekly, yearly, yhat). -/
structure PredRow where
  id : String
  ds : Nat
  trend : ℚ
  weekly : ℚ
  yearly : ℚ
  yhat : ℚ
  deriving DecidableEq

/-- One row of `merged_dataset` (columns ID, ds, y, trend, weekly,
yearly, yhat; the four model columns are null on an unmatched key). -/
structure ForecastRow where
  id : String
  ds : Nat
  y : ℚ
  trend : Option ℚ
  weekly : Option ℚ
  yearly : Option ℚ
  yhat : Option ℚ
  deriving DecidableEq

/-- Embeds the `sort_values(["ID", "ds"])` key order.  (String order is the
code-point lexicographic order, stated on the character lists.) -/
def leIdDs (a b : SeriesPoint) : Prop :=
  a.id.data < b.id.data ∨ (a.id = b.id ∧ a.ds ≤ b.ds)

instance : DecidableRel leIdDs := fun a b => by
  unfold leIdDs
  infer_instance

instance : IsTotal SeriesPoint leIdDs := by
  constructor
  intro a b
  unfold leIdDs
  rcases lt_trichotomy a.id.data b.id.data with h | h | h
  · exact Or.inl (Or.inl h)
  · have hid : a.id = b.id := String.ext h
    rcases le_total a.ds b.ds with h2 | h2
    · exact Or.inl (Or.inr ⟨hid, h2⟩)
    · exact Or.inr (Or.inr ⟨hid.symm, h2⟩)
  · exact Or.inr (Or.inl h)

instance : IsTrans SeriesPoint leIdDs := by
  constructor
  intro a b c hab hbc
  unfold leIdDs at *
  rcases hab with h1 | ⟨h1, h1d⟩
  · rcases hbc with h2 | ⟨h2, _⟩
    · exact Or.inl (lt_trans h1 h2)
    · exact Or.inl (h2 ▸ h1)
  · rcases hbc with h2 | ⟨h2, h2d⟩
    · exact Or.inl (h1 ▸ h2)
    · exact Or.inr ⟨h1.trans h2, le_trans h1d h2d⟩

/-- The merge key of a prediction row. -/
def keyOfQ (q : PredRow) : String × Nat := (q.id, q.ds)

/-- The merge key of an output row. -/
def keyOfF (r : ForecastRow) : String × Nat := (r.id, r.ds)

/-- The (ID, ds) key of a dataset row. -/
def keyOfP (p : SeriesPoint) : String × Nat := (p.id, p.ds)

/-- Franchise-then-week ascending order on merge keys. -/
def lexKey (a b : String × Nat) : Prop :=
  a.1.data < b.1.data ∨ (a.1 = b.1 ∧ a.2 ≤ b.2)

/-- Embeds `dataset`: the Prophet input (`avg_price_tbl[["Week", "Franchise",
"Sum_Units"]]`) renamed to ds / ID / y and sorted by (ID, ds). -/
def prophetDataset (recs : List SalesRecord) : List SeriesPoint :=
  ((avgPairs recs).map
    (fun p => ⟨p.1, p.2, sumUnitsWF recs p.1 p.2⟩)).insertionSort leIdDs

/-- The iteration order of `dataset.groupby("ID")`: the distinct IDs. -/
def datasetIds (dataset : List SeriesPoint) : List String :=
  (dataset.map (fun p => p.id)).dedup

/-- ds-ascending order on (ds, y) pairs. -/
def leDsFst (a b : Nat × ℚ) : Prop := a.1 ≤ b.1

instance : DecidableRel leDsFst := fun a b => by
  unfold leDsFst
  infer_instance

/-- Embeds `prophet_df = df_group[["ds", "y"]].copy().sort_values("ds")`:
the (ds, y) history of one franchise. -/
def seriesOf (dataset : List SeriesPoint) (fr : String) : List (Nat × ℚ) :=
  ((dataset.filter (fun p => decide (p.id = fr))).map
    (fun p => (p.ds, p.y))).insertionSort leDsFst

/-- The message of the `ValueError` Prophet raises from `fit` when the
history has fewer than 2 rows. -/
def fitErrMsg : String := "Dataframe has less than 2 non-NaN rows."

/-- Embeds `m.make_future_dataframe(periods=365)` with `include_history=True`:
the history dates followed by the `periods` consecutive days after the
last history date. -/
def makeFuture (histDs : List Nat) (periods : Nat) : List Nat :=
  histDs ++ (List.range periods).map (fun i => histDs.foldr max 0 + 1 + i)

/-- Modelled from the external library the script calls with no exception
handling around it (Prophet): `fit` raises
`ValueError("Dataframe has less than 2 non-NaN rows.")` when the history
has fewer than 2 rows (here the history rows are exactly the distinct
weeks of the franchise), and `predict(future)` returns one prediction row per
date of the future frame.  The numeric outputs (trend, weekly, yearly,
yhat) are unconstrained by every claim under verification and are
modelled as 0. -/
def prophetForecast (fr : String) (hist : List (Nat × ℚ)) :
    Except String (List PredRow) :=
  if hist.length < 2 then Except.error fitErrMsg
  else Except.ok ((makeFuture (hist.map (fun h => h.1)) 365).map
    (fun d => ⟨fr, d, 0, 0, 0, 0⟩))

/-- The `for fr_id, df_group in franchise_groups.items()` fit loop: the
per-franchise forecasts are concatenated, and an uncaught exception from
any single fit aborts the whole stage. -/
def fitAll (dataset : List SeriesPoint) : List String → Except String (List PredRow)
  | [] => Except.ok []
  | fr :: rest =>
    match prophetForecast fr (seriesOf dataset fr) with
    | Except.error e => Except.error e
    | Except.ok g => (fitAll dataset rest).map (fun gs => g ++ gs)

/-- The output rows a single left row produces in
`dataset.merge(all_forecasts[...], on=["ID", "ds"], how="left")`: one row
per matching right row, or a single row with null model columns when
nothing matches. -/
def mergeRow (preds : List PredRow) (p : SeriesPoint) : List ForecastRow :=
  let ms := preds.filter (fun q => decide (q.id = p.id ∧ q.ds = p.ds))
  if ms.isEmpty then [⟨p.id, p.ds, p.y, none, none, none, none⟩]
  else ms.map (fun q =>
    ⟨p.id, p.ds, p.y, some q.trend, some q.weekly, some q.yearly, some q.yhat⟩)

/-- The left merge itself: left rows in order, each expanded by
`mergeRow`. -/
def mergeLeft (dataset : List SeriesPoint) (preds : List PredRow) :
    List ForecastRow :=
  dataset.flatMap (mergeRow preds)

/-- The message of the `ValueError` pandas raises from
`pd.concat(results, ignore_index=True)` when `results` is empty. -/
def concatErrMsg : String := "No objects to concatenate"

/-- The whole Prophet modeling stage on a prepared dataset: the fit
loop, then `all_forecasts = pd.concat(results, ignore_index=True)` —
`results` holds one forecast frame per franchise, so with no franchises
at all the concat raises — then the left merge. -/
def runForecastOf (dataset : List SeriesPoint) : Except String (List ForecastRow) :=
  (fitAll dataset (datasetIds dataset)).bind (fun preds =>
    if datasetIds dataset = [] then Except.error concatErrMsg
    else Except.ok (mergeLeft dataset preds))

/-- The Prophet modeling stage of the pipeline. -/
def runForecast (recs : List SalesRecord) : Except String (List ForecastRow) :=
  runForecastOf (prophetDataset recs)

theorem isOk_error {ε α : Type} (e : ε) :
    (Except.error e : Except ε α).isOk = false := rfl

theorem isOk_ok {ε α : Type} (a : α) :
    (Except.ok a : Except ε α).isOk = true := rfl

theorem isOk_map {ε α β : Type} (f : α → β) (e : Except ε α) :
    (e.map f).isOk = e.isOk := by
  cases e <;> rfl

theorem map_eq_ok {ε α β : Type} {f : α → β} {e : Except ε α} {b : β} :
    e.map f = Except.ok b ↔ ∃ a, e = Except.ok a ∧ f a = b := by
  cases e with
  | error ea => simp [Except.map]
  | ok a => simp [Except.map]

theorem bind_eq_ok {ε α β : Type} {f : α → Except ε β} {e : Except ε α} {b : β} :
    e.bind f = Except.ok b ↔ ∃ a, e = Except.ok a ∧ f a = Except.ok b := by
  cases e with
  | error ea => simp [Except.bind]
  | ok a => simp [Except.bind]

theorem fitAll_cons (dataset : List SeriesPoint) (fr : String) (rest : List String) :
    fitAll dataset (fr :: rest) =
      match prophetForecast fr (seriesOf dataset fr) with
      | Except.error e => Except.error e
      | Except.ok g => (fitAll dataset rest).map (fun gs => g ++ gs) := rfl

theorem fitAll_cons_err (dataset : List SeriesPoint) (fr : String)
    (rest : List String) (h : (seriesOf dataset fr).length < 2) :
    fitAll dataset (fr :: rest) = Except.error fitErrMsg := by
  rw [fitAll_cons]
  unfold prophetForecast
  rw [if_pos h]

theorem fitAll_cons_ok (dataset : List SeriesPoint) (fr : String)
    (rest : List String) (h : ¬ (seriesOf dataset fr).length < 2) :
    fitAll dataset (fr :: rest) = (fitAll dataset rest).map
      (fun gs => (makeFuture ((seriesOf dataset fr).map (fun p => p.1)) 365).map
        (fun d => (⟨fr, d, 0, 0, 0, 0⟩ : PredRow)) ++ gs) := by
  rw [fitAll_cons]
  unfold prophetForecast
  rw [if_neg h]

theorem fitAll_isOk_iff (dataset : List SeriesPoint) (ids : List String) :
    (fitAll dataset ids).isOk = true ↔
      ∀ fr ∈ ids, 2 ≤ (seriesOf dataset fr).length := by
  induction ids with
  | nil => simp [fitAll, isOk_ok]
  | cons fr rest ih =>
    by_cases h : (seriesOf dataset fr).length < 2
    · rw [fitAll_cons_err dataset fr rest h, isOk_error]
      exact ⟨fun hh => absurd hh (by decide),
        fun hall => absurd (hall fr (List.mem_cons_self _ _)) (by omega)⟩
    · rw [fitAll_cons_ok dataset fr rest h, isOk_map, ih]
      constructor
      · intro hall fr2 hfr2
        rcases List.mem_cons.mp hfr2 with rfl | hmem
        · omega
        · exact hall fr2 hmem
      · intro hall fr2 hmem
        exact hall fr2 (List.mem_cons_of_mem _ hmem)

theorem fitAll_error_of_short (dataset : List SeriesPoint) (ids : List String)
    (fr : String) (hfr : fr ∈ ids) (h : (seriesOf dataset fr).length < 2) :
    fitAll dataset ids = Except.error fitErrMsg := by
  induction ids with
  | nil => cases hfr
  | cons a rest ih =>
    rcases List.mem_cons.mp hfr with rfl | hmem
    · exact fitAll_cons_err dataset fr rest h
    · by_cases ha : (seriesOf dataset a).length < 2
      · exact fitAll_cons_err dataset a rest ha
      · rw [fitAll_cons_ok dataset a rest ha, ih hmem]
        rfl

/-- Input where franchise "A" has two distinct weeks but franchise "B"
has a single one. -/
def c1exRecs : List SalesRecord :=
  [⟨some 1, "A", some 1, some 1⟩, ⟨some 2, "A", some 1, some 1⟩,
   ⟨some 2, "B", some 1, some 1⟩]

/-- Claim C1 counterexample: on an input where franchise "B" has a single
week point (and franchise "A" a healthy series), the forecasting stage
does not skip "B": the uncaught fit error aborts the whole stage, so no
franchise — "A" included — produces any forecast row. -/
theorem c1_counterexample :
    "B" ∈ datasetIds (prophetDataset c1exRecs) ∧
    (seriesOf (prophetDataset c1exRecs) "B").length = 1 ∧
    "A" ∈ datasetIds (prophetDataset c1exRecs) ∧
    2 ≤ (seriesOf (prophetDataset c1exRecs) "A").length ∧
    runForecast c1exRecs = Except.error fitErrMsg := by
  refine ⟨by decide, by decide, by decide, by decide, ?_⟩
  rfl

/-- Claim C1 amended: on every input where some franchise has fewer than
2 distinct week points, the forecasting stage does not recover: the
uncaught fit error aborts the whole stage, so that franchise is not
skipped, no null-prediction rows appear, and no other franchise produces
any forecast row either. -/
theorem c1_forecast_abort (recs : List SalesRecord)
    (h : ∃ fr ∈ datasetIds (prophetDataset recs),
        (seriesOf (prophetDataset recs) fr).length < 2) :
    runForecast recs = Except.error fitErrMsg := by
  rcases h with ⟨fr, hfr, hlen⟩
  show runForecastOf (prophetDataset recs) = _
  rw [runForecastOf, fitAll_error_of_short _ _ fr hfr hlen]
  rfl

theorem c1_forecast_abort_witness :
    runForecast c1exRecs = Except.error fitErrMsg :=
  c1_forecast_abort c1exRecs ⟨"B", by decide, by decide⟩

theorem nodup_avgPairs (recs : List SalesRecord) : (avgPairs recs).Nodup :=
  List.nodup_dedup _

theorem nodup_keys_prophetDataset (recs : List SalesRecord) :
    ((prophetDataset recs).map keyOfP).Nodup := by
  have hperm : (prophetDataset recs).Perm
      ((avgPairs recs).map (fun p => (⟨p.1, p.2, sumUnitsWF recs p.1 p.2⟩ : SeriesPoint))) :=
    List.perm_insertionSort _ _
  have hperm2 := hperm.map keyOfP
  rw [List.map_map] at hperm2
  refine hperm2.nodup_iff.mpr ?_
  have hinj : Function.Injective (fun p : Nat × String => (p.2, p.1)) := by
    intro p q h
    rcases p with ⟨p1, p2⟩
    rcases q with ⟨q1, q2⟩
    simp only [Prod.mk.injEq] at h
    exact Prod.ext h.2 h.1
  exact List.Nodup.map hinj (nodup_avgPairs recs)

theorem sorted_keys_of_dataset (dataset : List SeriesPoint)
    (h : List.Sorted leIdDs dataset) :
    List.Sorted lexKey (dataset.map keyOfP) := by
  rw [List.Sorted, List.pairwise_map]
  exact h.imp (fun hab => hab)

theorem nodup_seriesOf_fst (dataset : List SeriesPoint)
    (hnd : (dataset.map keyOfP).Nodup) (fr : String) :
    ((seriesOf dataset fr).map (fun h => h.1)).Nodup := by
  have hperm : (seriesOf dataset fr).Perm
      ((dataset.filter (fun p => decide (p.id = fr))).map (fun p => (p.ds, p.y))) :=
    List.perm_insertionSort _ _
  have hperm2 := hperm.map (fun h : Nat × ℚ => h.1)
  rw [List.map_map] at hperm2
  refine hperm2.nodup_iff.mpr ?_
  have hsub : ((dataset.filter (fun p => decide (p.id = fr))).map keyOfP).Sublist
      (dataset.map keyOfP) := (List.filter_sublist dataset).map keyOfP
  have hndf : ((dataset.filter (fun p => decide (p.id = fr))).map keyOfP).Nodup :=
    List.Nodup.sublist hsub hnd
  have hform : (dataset.filter (fun p => decide (p.id = fr))).map keyOfP
      = ((dataset.filter (fun p => decide (p.id = fr))).map
          (fun p => ((fun h : Nat × ℚ => h.1) ∘ fun p => (p.ds, p.y)) p)).map
            (fun d => (fr, d)) := by
    rw [List.map_map]
    refine List.map_congr_left ?_
    intro p hp
    have hid : p.id = fr := of_decide_eq_true (List.mem_filter.mp hp).2
    simp [keyOfP, Function.comp, hid]
  rw [hform] at hndf
  exact List.Nodup.of_map _ hndf

theorem le_foldr_max (l : List Nat) : ∀ a ∈ l, a ≤ l.foldr max 0 := by
  induction l with
  | nil => intro a ha; cases ha
  | cons x t ih =>
    intro a ha
    rcases List.mem_cons.mp ha with rfl | h
    · exact le_max_left _ _
    · exact le_trans (ih a h) (le_max_right _ _)

theorem nodup_makeFuture (histDs : List Nat) (hnd : histDs.Nodup) (periods : Nat) :
    (makeFuture histDs periods).Nodup := by
  unfold makeFuture
  refine List.Nodup.append hnd ?_ ?_
  · refine List.Nodup.map ?_ (List.nodup_range periods)
    intro i j h
    dsimp only at h
    omega
  · intro a ha hb
    rcases List.mem_map.mp hb with ⟨i, _, hval⟩
    have hle := le_foldr_max histDs a ha
    omega

theorem prophetForecast_ok_facts (fr : String) (hist : List (Nat × ℚ))
    (hnd : (hist.map (fun h => h.1)).Nodup) (g : List PredRow)
    (h : prophetForecast fr hist = Except.ok g) :
    (∀ q ∈ g, q.id = fr) ∧ (g.map keyOfQ).Nodup := by
  unfold prophetForecast at h
  by_cases hlen : hist.length < 2
  · rw [if_pos hlen] at h
    cases h
  · rw [if_neg hlen] at h
    have hg : (makeFuture (hist.map (fun h => h.1)) 365).map
        (fun d => (⟨fr, d, 0, 0, 0, 0⟩ : PredRow)) = g := by
      injection h
    subst hg
    constructor
    · intro q hq
      rcases List.mem_map.mp hq with ⟨d, _, rfl⟩
      rfl
    · rw [List.map_map]
      refine List.Nodup.map ?_ (nodup_makeFuture _ hnd 365)
      intro x y hxy
      have := congrArg Prod.snd hxy
      simpa [keyOfQ] using this

theorem fitAll_ok_keys (dataset : List SeriesPoint)
    (hkeys : (dataset.map keyOfP).Nodup) :
    ∀ ids preds, ids.Nodup → fitAll dataset ids = Except.ok preds →
      (∀ q ∈ preds, q.id ∈ ids) ∧ (preds.map keyOfQ).Nodup := by
  intro ids
  induction ids with
  | nil =>
    intro preds _ h
    simp only [fitAll] at h
    have : ([] : List PredRow) = preds := by injection h
    subst this
    exact ⟨fun q hq => absurd hq (List.not_mem_nil q), List.nodup_nil⟩
  | cons fr rest ih =>
    intro preds hnd hok
    rcases List.nodup_cons.mp hnd with ⟨hfr, hrest⟩
    rw [fitAll_cons] at hok
    cases hpf : prophetForecast fr (seriesOf dataset fr) with
    | error e =>
      rw [hpf] at hok
      cases hok
    | ok g =>
      rw [hpf] at hok
      rcases map_eq_ok.mp hok with ⟨gs, hgs, hpreds⟩
      subst hpreds
      rcases ih gs hrest hgs with ⟨hcov, hnd2⟩
      have hser : ((seriesOf dataset fr).map (fun h => h.1)).Nodup :=
        nodup_seriesOf_fst dataset hkeys fr
      rcases prophetForecast_ok_facts fr _ hser g hpf with ⟨hid, hndg⟩
      constructor
      · intro q hq
        rcases List.mem_append.mp hq with hq | hq
        · exact (hid q hq) ▸ List.mem_cons_self _ _
        · exact List.mem_cons_of_mem _ (hcov q hq)
      · rw [List.map_append]
        refine List.Nodup.append hndg hnd2 ?_
        intro k hk1 hk2
        rcases List.mem_map.mp hk1 with ⟨q1, hq1, hkey1⟩
        rcases List.mem_map.mp hk2 with ⟨q2, hq2, hkey2⟩
        have h1 : q1.id = fr := hid q1 hq1
        have h2 : q2.id ∈ rest := hcov q2 hq2
        have hsame : q1.id = q2.id := by
          have := (hkey1.trans hkey2.symm)
          exact congrArg Prod.fst this
        rw [h1] at hsame
        rw [← hsame] at h2
        exact hfr h2

theorem length_filter_eqkey_le_one {α κ : Type} [DecidableEq κ] (key : α → κ)
    (l : List α) (hnd : (l.map key).Nodup) (k : κ) (p : α → Bool)
    (hp : ∀ x, p x = true ↔ key x = k) :
    (l.filter p).length ≤ 1 := by
  induction l with
  | nil => simp
  | cons a t ih =>
    rw [List.map_cons, List.nodup_cons] at hnd
    rcases hnd with ⟨ha, ht⟩
    by_cases hk : p a = true
    · have hka : key a = k := (hp a).mp hk
      have hnil : t.filter p = [] := by
        rw [List.filter_eq_nil_iff]
        intro x hx hcon
        have hkx : key x = k := (hp x).mp hcon
        refine ha ?_
        rw [show key a = key x from hka.trans hkx.symm]
        exact List.mem_map_of_mem key hx
      rw [List.filter_cons, if_pos hk, hnil]
      simp
    · rw [List.filter_cons, if_neg hk]
      exact ih ht

theorem mergeRow_keys (p : SeriesPoint) (preds : List PredRow)
    (hnd : (preds.map keyOfQ).Nodup) :
    (mergeRow preds p).map keyOfF = [keyOfP p] := by
  have hle : (preds.filter
      (fun q => decide (q.id = p.id ∧ q.ds = p.ds))).length ≤ 1 := by
    refine length_filter_eqkey_le_one keyOfQ preds hnd (p.id, p.ds) _ ?_
    intro x
    rw [decide_eq_true_eq]
    constructor
    · intro hx
      exact Prod.ext hx.1 hx.2
    · intro hx
      exact ⟨congrArg Prod.fst hx, congrArg Prod.snd hx⟩
  simp only [mergeRow]
  rcases hms : preds.filter (fun q => decide (q.id = p.id ∧ q.ds = p.ds)) with
    _ | ⟨q, ms2⟩
  · rw [hms]
    rfl
  · rw [hms] at hle
    have hms2 : ms2 = [] := by
      simp only [List.length_cons] at hle
      exact List.eq_nil_of_length_eq_zero (by omega)
    subst hms2
    rw [hms]
    rfl

theorem mergeLeft_keys (dataset : List SeriesPoint) (preds : List PredRow)
    (hnd : (preds.map keyOfQ).Nodup) :
    (mergeLeft dataset preds).map keyOfF = dataset.map keyOfP := by
  induction dataset with
  | nil => rfl
  | cons p t ih =>
    show ((p :: t).flatMap (mergeRow preds)).map keyOfF = _
    rw [List.flatMap_cons, List.map_append, mergeRow_keys p preds hnd]
    rw [show (t.flatMap (mergeRow preds)).map keyOfF = t.map keyOfP from ih]
    rfl

/-- Claim C6: when the forecasting stage succeeds, the merged output has
exactly one row per distinct (franchise, week) key of the observed
series: its key sequence equals the key sequence of the prepared dataset, is
duplicate-free, is sorted by franchise then week ascending, and is a
permutation of the distinct (franchise, week) pairs of the included
records.  The fitted model never surfaces two predictions for one key
(the forward dates of the future frame start strictly after the last observed
date), so the left merge is cardinality-preserving and every observed
key receives its unique in-sample prediction row. -/
theorem c6_merge_shape (recs : List SalesRecord) (out : List ForecastRow)
    (h : runForecast recs = Except.ok out) :
    out.map keyOfF = (prophetDataset recs).map keyOfP ∧
    (out.map keyOfF).Nodup ∧
    List.Sorted lexKey (out.map keyOfF) ∧
    (out.map keyOfF).Perm ((avgPairs recs).map (fun p => (p.2, p.1))) := by
  have hkeys := nodup_keys_prophetDataset recs
  have h2 : (fitAll (prophetDataset recs)
      (datasetIds (prophetDataset recs))).bind
      (fun preds => if datasetIds (prophetDataset recs) = [] then
          Except.error concatErrMsg
        else Except.ok (mergeLeft (prophetDataset recs) preds))
      = Except.ok out := h
  rcases bind_eq_ok.mp h2 with ⟨preds, hfit, hout⟩
  by_cases hids : datasetIds (prophetDataset recs) = []
  · rw [if_pos hids] at hout
    cases hout
  rw [if_neg hids] at hout
  have hout2 : mergeLeft (prophetDataset recs) preds = out := by
    injection hout
  have hndids : (datasetIds (prophetDataset recs)).Nodup := List.nodup_dedup _
  rcases fitAll_ok_keys _ hkeys _ _ hndids hfit with ⟨_, hndpreds⟩
  have hmain : out.map keyOfF = (prophetDataset recs).map keyOfP := by
    rw [← hout2]
    exact mergeLeft_keys _ preds hndpreds
  refine ⟨hmain, ?_, ?_, ?_⟩
  · rw [hmain]
    exact hkeys
  · rw [hmain]
    exact sorted_keys_of_dataset _ (List.sorted_insertionSort _ _)
  · rw [hmain]
    have hperm : (prophetDataset recs).Perm
        ((avgPairs recs).map
          (fun p => (⟨p.1, p.2, sumUnitsWF recs p.1 p.2⟩ : SeriesPoint))) :=
      List.perm_insertionSort _ _
    have hp2 := hperm.map keyOfP
    rw [List.map_map] at hp2
    exact hp2

/-- Two-record input (franchise "A", weeks 1 and 2) whose forecast run
succeeds. -/
def c6exRecs : List SalesRecord :=
  [⟨some 1, "A", some 1, some 1⟩, ⟨some 2, "A", some 1, some 1⟩]

/-- The successful output of the forecast stage on `c6exRecs`. -/
def c6exOut : List ForecastRow := ((runForecast c6exRecs).toOption).getD []

theorem c6_merge_shape_witness :
    runForecast c6exRecs = Except.ok c6exOut ∧
    c6exOut.map keyOfF = (prophetDataset c6exRecs).map keyOfP ∧
    (c6exOut.map keyOfF).Nodup := by
  have hok : runForecast c6exRecs = Except.ok c6exOut := rfl
  exact ⟨hok, (c6_merge_shape c6exRecs c6exOut hok).1,
    (c6_merge_shape c6exRecs c6exOut hok).2.1⟩

/-! ### Null-week records are inert (C8) -/

theorem filterMap_week_filter_isSome (recs : List SalesRecord) :
    (recs.filter (fun x => x.week.isSome)).filterMap (fun r => r.week)
      = recs.filterMap (fun r => r.week) := by
  induction recs with
  | nil => rfl
  | cons a t ih =>
    cases ha : a.week with
    | none => simp [List.filter_cons, List.filterMap_cons, ha, ih]
    | some w => simp [List.filter_cons, List.filterMap_cons, ha, ih]

theorem uniqueWeeks_filter_isSome (recs : List SalesRecord) :
    uniqueWeeks (recs.filter (fun x => x.week.isSome)) = uniqueWeeks recs := by
  unfold uniqueWeeks
  rw [filterMap_week_filter_isSome]

theorem week_map_filter_isSome (recs : List SalesRecord) :
    week_map (recs.filter (fun x => x.week.isSome)) = week_map recs := by
  funext wk
  unfold week_map weekMapList
  rw [uniqueWeeks_filter_isSome]

theorem weekMapping_filter_isSome (recs : List SalesRecord) :
    weekMapping (recs.filter (fun x => x.week.isSome)) = weekMapping recs := by
  funext w
  unfold weekMapping
  rw [week_map_filter_isSome]

theorem includeFlag_filter_isSome (recs : List SalesRecord) :
    includeFlag (recs.filter (fun x => x.week.isSome)) = includeFlag recs := by
  funext r
  unfold includeFlag
  rw [weekMapping_filter_isSome]

theorem includeFlag_isSome (recs : List SalesRecord) (r : SalesRecord)
    (h : includeFlag recs r = true) : r.week.isSome = true := by
  cases hw : r.week with
  | none =>
    unfold includeFlag at h
    rw [hw] at h
    have hfalse : false = true := h
    exact absurd hfalse (by decide)
  | some w => rfl

theorem includedRecords_filter_isSome (recs : List SalesRecord) :
    includedRecords (recs.filter (fun x => x.week.isSome))
      = includedRecords recs := by
  unfold includedRecords
  rw [includeFlag_filter_isSome, List.filter_filter]
  refine List.filter_congr ?_
  intro x _
  cases hf : includeFlag recs x
  · simp
  · simp [includeFlag_isSome recs x hf]

theorem analyticalBase_filter_isSome (recs : List SalesRecord) :
    analyticalBase (recs.filter (fun x => x.week.isSome))
      = analyticalBase recs := by
  unfold analyticalBase joinKeys sales_ct units_ct franchises sumSales sumUnits
  rw [includedRecords_filter_isSome, weekMapping_filter_isSome]

theorem avgPriceTbl_filter_isSome (recs : List SalesRecord) :
    avgPriceTbl (recs.filter (fun x => x.week.isSome)) = avgPriceTbl recs := by
  unfold avgPriceTbl avgPairs sumUnitsWF sumSalesWF
  rw [includedRecords_filter_isSome]

theorem runForecast_filter_isSome (recs : List SalesRecord) :
    runForecast (recs.filter (fun x => x.week.isSome)) = runForecast recs := by
  unfold runForecast prophetDataset avgPairs sumUnitsWF
  rw [includedRecords_filter_isSome]

/-- Claim C8: a record whose week is null (unparseable, coerced to null)
receives no week bucket, its inclusion flag is Exclude, it never enters
the included rows, and dropping every null-week record leaves the joined
crosstab, the sorted analytical table, the average-price table and the
forecast stage outputs unchanged — such a record contributes to no
aggregate. -/
theorem c8_null_week_excluded (recs : List SalesRecord) (r : SalesRecord)
    (_hr : r ∈ recs) (hw : r.week = none) :
    weekMapping recs r.week = none ∧
    includeFlag recs r = false ∧
    r ∉ includedRecords recs ∧
    analyticalBase (recs.filter (fun x => x.week.isSome)) = analyticalBase recs ∧
    analyticalSorted (recs.filter (fun x => x.week.isSome))
      = analyticalSorted recs ∧
    avgPriceTbl (recs.filter (fun x => x.week.isSome)) = avgPriceTbl recs ∧
    runForecast (recs.filter (fun x => x.week.isSome)) = runForecast recs := by
  have hflag : includeFlag recs r = false := by
    unfold includeFlag
    rw [hw]
    rfl
  refine ⟨by rw [hw]; rfl, hflag, ?_, analyticalBase_filter_isSome recs, ?_,
    avgPriceTbl_filter_isSome recs, runForecast_filter_isSome recs⟩
  · intro hmem
    have htrue := (List.mem_filter.mp hmem).2
    rw [hflag] at htrue
    exact absurd htrue (by decide)
  · unfold analyticalSorted
    rw [analyticalBase_filter_isSome]

/-- Input with one included record and one null-week record,
witnessing C8. -/
def c8exRecs : List SalesRecord :=
  [⟨some 1, "A", some 1, some 1⟩, ⟨none, "A", some 1, some 1⟩]

theorem c8_null_week_excluded_witness :
    (⟨none, "A", some 1, some 1⟩ : SalesRecord) ∈ c8exRecs ∧
    includeFlag c8exRecs ⟨none, "A", some 1, some 1⟩ = false ∧
    avgPriceTbl (c8exRecs.filter (fun x => x.week.isSome))
      = avgPriceTbl c8exRecs := by
  have hr : (⟨none, "A", some 1, some 1⟩ : SalesRecord) ∈ c8exRecs := by decide
  have hthm := c8_null_week_excluded c8exRecs ⟨none, "A", some 1, some 1⟩ hr rfl
  exact ⟨hr, hthm.2.1, hthm.2.2.2.2.2.1⟩

end SalesAuto

namespace MediaAuto

/-- One row of the consolidated media sheet after the normalization
prelude of `media_auto.py` (header strip/rename, date and numeric
coercion).  `franchiseRaw` is the raw Franchise cell (`none` = NaN);
`partner` is the raw Partner cell. -/
structure MediaRecord where
  week : Option Nat
  partner : Option String
  franchiseRaw : Option String
  spend : Option ℚ
  impressions : Option ℚ
  deriving DecidableEq

/-- Python `str(value)` on a possibly-NaN cell (`str(nan) = "nan"`). -/
def strOf (v : Option String) : String := v.getD "nan"

/-- Python substring containment (`"x" in s`). -/
def strContains (s pat : String) : Bool :=
  (s.data.tails).any (fun t => pat.data.isPrefixOf t)

/-- Embeds `map_franchise`: a cell containing "Blowdry Cream" maps to
"Styling", else one containing "Prime Day" maps to "Biolage - Brand",
else the stringified cell passes through. -/
def map_franchise (v : Option String) : String :=
  if strContains (strOf v) "Blowdry Cream" then "Styling"
  else if strContains (strOf v) "Prime Day" then "Biolage - Brand"
  else strOf v

/-- Embeds the rule `Partner_tag = Partner + "_Brand"` when the remapped franchise
contains "- Brand", else `Partner` (both through `astype(str)`). -/
def partner_tag (r : MediaRecord) : String :=
  if strContains (map_franchise r.franchiseRaw) "- Brand" then
    strOf r.partner ++ "_Brand"
  else strOf r.partner

/-- Embeds `unique_partners`: the non-null partners, first occurrence first. -/
def uniquePartners (df : List MediaRecord) : List String :=
  (df.filterMap (fun r => r.partner)).dedup

/-- The skeleton: rows (p, p) and (p, p_Brand) for every unique partner,
then `drop_duplicates`. -/
def skeleton (df : List MediaRecord) : List (String × String) :=
  ((uniquePartners df).flatMap (fun p => [(p, p), (p, p ++ "_Brand")])).dedup

/-- Spend total of one (Partner, Partner_tag) group (`groupby` drops
null-Partner rows; NaN measures contribute 0 to the sum). -/
def sumSpend (df : List MediaRecord) (p tag : String) : ℚ :=
  ((df.filter (fun r => decide (r.partner = some p ∧ partner_tag r = tag))).map
    (fun r => r.spend.getD 0)).sum

/-- Impressions total of one (Partner, Partner_tag) group. -/
def sumImpressions (df : List MediaRecord) (p tag : String) : ℚ :=
  ((df.filter (fun r => decide (r.partner = some p ∧ partner_tag r = tag))).map
    (fun r => r.impressions.getD 0)).sum

/-- Whether the (Partner, Partner_tag) key occurs in the groupby output
(i.e. some row carries it) — exactly the keys the left merge can hit. -/
def groupExists (df : List MediaRecord) (p tag : String) : Bool :=
  df.any (fun r => decide (r.partner = some p ∧ partner_tag r = tag))

/-- One row of `partner_tag_summary`. -/
structure PTRow where
  partner : String
  tag : String
  spend : ℚ
  impressions : ℚ
  deriving DecidableEq

/-- Embeds the `sort_values(["Partner", "Partner_tag"])` order (code-point
lexicographic on the character lists). -/
def lePT (a b : PTRow) : Prop :=
  a.partner.data < b.partner.data ∨ (a.partner = b.partner ∧ a.tag.data ≤ b.tag.data)

instance : DecidableRel lePT := fun a b => by
  unfold lePT
  infer_instance

/-- Embeds `partner_tag_summary`: the skeleton left-merged with the groupby
sums on (Partner, Partner_tag), measures `fillna(0)`, sorted by Partner
then Partner_tag.  A skeleton key missing from the groupby output
receives nulls which the fill replaces by 0. -/
def partner_tag_summary (df : List MediaRecord) : List PTRow :=
  ((skeleton df).map (fun k =>
    { partner := k.1
      tag := k.2
      spend := if groupExists df k.1 k.2 then sumSpend df k.1 k.2 else 0
      impressions :=
        if groupExists df k.1 k.2 then sumImpressions df k.1 k.2
        else 0 })).insertionSort lePT

theorem ne_append_brand (p : String) : p ≠ p ++ "_Brand" := by
  intro h
  have hlen := congrArg String.length h
  rw [String.length_append] at hlen
  have h6 : ("_Brand" : String).length = 6 := rfl
  omega

theorem nodup_skeleton_core (ps : List String) (hnd : ps.Nodup) :
    (ps.flatMap (fun p => [(p, p), (p, p ++ "_Brand")])).Nodup := by
  induction ps with
  | nil => simp
  | cons p t ih =>
    rw [List.flatMap_cons]
    rcases List.nodup_cons.mp hnd with ⟨hp, ht⟩
    refine List.Nodup.append ?_ (ih ht) ?_
    · refine List.nodup_cons.mpr ⟨?_, List.nodup_singleton _⟩
      intro hmem
      have heq : (p, p) = (p, p ++ "_Brand") := List.mem_singleton.mp hmem
      exact ne_append_brand p (congrArg Prod.snd heq)
    · intro k hk1 hk2
      rcases List.mem_flatMap.mp hk2 with ⟨q, hq, hkq⟩
      have hkp : k.1 = p := by
        rcases List.mem_cons.mp hk1 with rfl | h1
        · rfl
        · rw [List.mem_singleton.mp h1]
      have hkq1 : k.1 = q := by
        rcases List.mem_cons.mp hkq with rfl | h1
        · rfl
        · rw [List.mem_singleton.mp h1]
      exact hp (by rw [← hkp, hkq1]; exact hq)

theorem nodup_skeleton (df : List MediaRecord) : (skeleton df).Nodup :=
  List.nodup_dedup _

theorem skeleton_eq_core (df : List MediaRecord) :
    skeleton df = (uniquePartners df).flatMap (fun p => [(p, p), (p, p ++ "_Brand")]) := by
  unfold skeleton
  exact List.dedup_eq_self.mpr (nodup_skeleton_core _ (List.nodup_dedup _))

theorem length_skeleton (df : List MediaRecord) :
    (skeleton df).length = 2 * (uniquePartners df).length := by
  rw [skeleton_eq_core]
  induction uniquePartners df with
  | nil => rfl
  | cons p t ih =>
    rw [List.flatMap_cons, List.length_append, ih]
    simp [Nat.mul_succ]
    omega

theorem mem_skeleton_self (df : List MediaRecord) (p : String)
    (hp : p ∈ uniquePartners df) : (p, p) ∈ skeleton df := by
  rw [skeleton_eq_core]
  exact List.mem_flatMap.mpr ⟨p, hp, List.mem_cons_self _ _⟩

theorem mem_skeleton_brand (df : List MediaRecord) (p : String)
    (hp : p ∈ uniquePartners df) : (p, p ++ "_Brand") ∈ skeleton df := by
  rw [skeleton_eq_core]
  exact List.mem_flatMap.mpr
    ⟨p, hp, List.mem_cons_of_mem _ (List.mem_cons_self _ _)⟩

theorem filter_summary_key (df : List MediaRecord) (k : String × String)
    (hk : k ∈ skeleton df) :
    ((partner_tag_summary df).filter
      (fun row => decide (row.partner = k.1 ∧ row.tag = k.2))).length = 1 := by
  have hperm : (partner_tag_summary df).Perm
      ((skeleton df).map (fun k =>
        ({ partner := k.1
           tag := k.2
           spend := if groupExists df k.1 k.2 then sumSpend df k.1 k.2 else 0
           impressions :=
             if groupExists df k.1 k.2 then sumImpressions df k.1 k.2
             else 0 } : PTRow))) :=
    List.perm_insertionSort _ _
  have hpf := hperm.filter
    (fun row => decide (row.partner = k.1 ∧ row.tag = k.2))
  rw [hpf.length_eq, List.filter_map, List.length_map]
  show ((skeleton df).filter (fun x => decide (x.1 = k.1 ∧ x.2 = k.2))).length = 1
  have hle : ((skeleton df).filter
      (fun x => decide (x.1 = k.1 ∧ x.2 = k.2))).length ≤ 1 := by
    refine SalesAuto.length_filter_eqkey_le_one id (skeleton df)
      ?_ k _ ?_
    · rw [List.map_id]
      exact nodup_skeleton df
    · intro x
      rw [decide_eq_true_eq]
      constructor
      · intro hx
        exact Prod.ext hx.1 hx.2
      · intro hx
        exact ⟨congrArg Prod.fst hx, congrArg Prod.snd hx⟩
  have hge : 1 ≤ ((skeleton df).filter
      (fun x => decide (x.1 = k.1 ∧ x.2 = k.2))).length := by
    have hmem : k ∈ (skeleton df).filter
        (fun x => decide (x.1 = k.1 ∧ x.2 = k.2)) :=
      List.mem_filter.mpr ⟨hk, decide_eq_true ⟨rfl, rfl⟩⟩
    exact List.length_pos.mpr (fun hnil => by rw [hnil] at hmem; cases hmem)
  omega

theorem sumSpend_of_not_exists (df : List MediaRecord) (p tag : String)
    (h : groupExists df p tag = false) : sumSpend df p tag = 0 := by
  unfold sumSpend
  unfold groupExists at h
  rw [List.any_eq_false] at h
  rw [show df.filter
      (fun r => decide (r.partner = some p ∧ partner_tag r = tag)) = [] from
    List.filter_eq_nil_iff.mpr (fun r hr hcon => h r hr hcon)]
  rfl

theorem sumImpressions_of_not_exists (df : List MediaRecord) (p tag : String)
    (h : groupExists df p tag = false) : sumImpressions df p tag = 0 := by
  unfold sumImpressions
  unfold groupExists at h
  rw [List.any_eq_false] at h
  rw [show df.filter
      (fun r => decide (r.partner = some p ∧ partner_tag r = tag)) = [] from
    List.filter_eq_nil_iff.mpr (fun r hr hcon => h r hr hcon)]
  rfl

/-- Claim C10: the Partner / Partner_tag summary has exactly twice as many
rows as there are distinct non-null partners; for every such partner `p`
it contains exactly one (p, p) row and exactly one (p, p_Brand) row; and
the Spend / Impressions of every row equal the (zero when empty) group totals
for its key, so both measures are populated even for combinations with
no observations. -/
theorem c10_partner_tag_summary (df : List MediaRecord) :
    (partner_tag_summary df).length = 2 * (uniquePartners df).length ∧
    (∀ p ∈ uniquePartners df,
      ((partner_tag_summary df).filter
        (fun row => decide (row.partner = p ∧ row.tag = p))).length = 1 ∧
      ((partner_tag_summary df).filter
        (fun row => decide (row.partner = p ∧ row.tag = p ++ "_Brand"))).length
          = 1) ∧
    (∀ row ∈ partner_tag_summary df,
      (row.partner, row.tag) ∈ skeleton df ∧
      row.spend = sumSpend df row.partner row.tag ∧
      row.impressions = sumImpressions df row.partner row.tag) := by
  refine ⟨?_, ?_, ?_⟩
  · unfold partner_tag_summary
    rw [List.length_insertionSort, List.length_map, length_skeleton]
  · intro p hp
    exact ⟨filter_summary_key df (p, p) (mem_skeleton_self df p hp),
      filter_summary_key df (p, p ++ "_Brand") (mem_skeleton_brand df p hp)⟩
  · intro row hrow
    unfold partner_tag_summary at hrow
    rw [List.mem_insertionSort] at hrow
    rcases List.mem_map.mp hrow with ⟨k, hk, rfl⟩
    refine ⟨hk, ?_, ?_⟩
    · cases hex : groupExists df k.1 k.2
      · simp only [hex, if_false]
        exact (sumSpend_of_not_exists df k.1 k.2 hex).symm
      · simp only [hex, if_true]
    · cases hex : groupExists df k.1 k.2
      · simp only [hex, if_false]
        exact (sumImpressions_of_not_exists df k.1 k.2 hex).symm
      · simp only [hex, if_true]

/-- Concrete media input witnessing C10: one "Prime Day" row (remapped
to the Brand franchise, so its Partner_tag is "Amazon_Brand") and one
plain row. -/
def c10exDf : List MediaRecord :=
  [⟨some 1, some "Amazon", some "Biolage Prime Day", some 1, some 1⟩,
   ⟨some 1, some "Amazon", some "ColorLast", some 1, some 1⟩]

theorem c10_partner_tag_summary_witness :
    "Amazon" ∈ uniquePartners c10exDf ∧
    (partner_tag_summary c10exDf).length = 2 * (uniquePartners c10exDf).length ∧
    ((partner_tag_summary c10exDf).filter
      (fun row => decide (row.partner = "Amazon" ∧ row.tag = "Amazon"))).length
        = 1 := by
  have hp : "Amazon" ∈ uniquePartners c10exDf := by decide
  exact ⟨hp, (c10_partner_tag_summary c10exDf).1,
    ((c10_partner_tag_summary c10exDf).2.1 "Amazon" hp).1⟩

end MediaAuto
